import Mathlib

/-!
Verification of the GBEasy patching pipeline (`cli.py`, `src/functions.py`,
`src/variables.py`) against its natural-language specification.

The Python source is shallowly embedded: pure string manipulation is
translated to executable Lean functions over `List Char` / `String`;
filesystem state is explicit (`String → Option _` maps from paths);
network transfers, subprocess results and user input are abstract
parameters recording, point by point, the outcome of each external
interaction exactly where the source consults it.
-/

set_option autoImplicit false

namespace GBEasy

/-! ## String utilities mirroring the Python primitives used by the source

`charsStartWith` / `charsHave` mirror Python's `str.__contains__`
(`needle in hay`), `charsEndWith` mirrors `str.endswith`, `lowerChar`
mirrors `str.lower` on the ASCII range (the only range the source's
needles "crack" / "original" occupy), `pyStrip` mirrors `str.strip()`
on ASCII whitespace, and `pyIsDigit` mirrors `str.isdigit` on decimal
digits (nonempty and all digits).
-/

/-- Does the list start with `needle`? (Python `str.startswith`, used to
implement substring containment.) -/
def charsStartWith : List Char → List Char → Bool
  | [], _ => true
  | _ :: _, [] => false
  | a :: as, b :: bs => a == b && charsStartWith as bs

/-- Does `needle` occur as a contiguous run inside the second list?
(Python `needle in hay`.) -/
def charsHave (needle : List Char) : List Char → Bool
  | [] => needle.isEmpty
  | c :: rest => charsStartWith needle (c :: rest) || charsHave needle rest

/-- `strHas hay needle` is Python's `needle in hay` on strings. -/
def strHas (hay needle : String) : Bool :=
  charsHave needle.data hay.data

/-- Does the list end with `suffixChars`? (Python `str.endswith`.) -/
def charsEndWith (l sufChars : List Char) : Bool :=
  charsStartWith sufChars.reverse l.reverse

/-- `strEndsWith s t` is Python's `s.endswith(t)`. -/
def strEndsWith (s t : String) : Bool :=
  charsEndWith s.data t.data

/-- ASCII lower-casing of one character (Python `str.lower`; the source
only compares against the ASCII needles "crack" and "original"). -/
def lowerChar (c : Char) : Char :=
  if 'A' ≤ c ∧ c ≤ 'Z' then Char.ofNat (c.toNat + 32) else c

/-- `pyLower s` is Python's `s.lower()` restricted to ASCII letters. -/
def pyLower (s : String) : String :=
  ⟨s.data.map lowerChar⟩

/-- ASCII whitespace, as stripped by Python's `str.strip()`. -/
def isSpaceChar (c : Char) : Bool :=
  c == ' ' || c == '\t' || c == '\n' || c == '\r' || c == '\x0b' || c == '\x0c'

/-- Drop leading whitespace. -/
def dropSpaces (l : List Char) : List Char :=
  l.dropWhile isSpaceChar

/-- `pyStrip s` is Python's `s.strip()` (ASCII whitespace). -/
def pyStrip (s : String) : String :=
  ⟨(dropSpaces (dropSpaces s.data.reverse).reverse)⟩

/-- `pyIsDigit s` is Python's `s.isdigit()` on decimal digits: `True`
exactly when `s` is nonempty and every character is a digit. -/
def pyIsDigit (s : String) : Bool :=
  !s.data.isEmpty && s.data.all Char.isDigit

/-! ## Release Resolver (`get_latest_release_asset_url`, functions.py 28–95)

The network fetch and JSON decoding are abstracted to the decoded
`assets` list (`{name, browser_download_url}` pairs); the selection
logic below is a line-by-line translation of the Python loop and its
fall-through branches.  `Option String` arguments model Python's
optional `str | None` parameters; `truthy` is Python truthiness on
them (`None` and `""` are falsy).
-/

/-- One entry of the release's `assets` array. -/
structure Asset where
  name : String
  url : String
deriving DecidableEq

/-- Python truthiness of an optional string (`None` and `""` are falsy). -/
def truthy : Option String → Bool
  | none => false
  | some s => !(s == "")

/-- The first guard of the loop body (functions.py line 45):
`asset_exact_name and asset_name == asset_exact_name`. -/
def exactHit (exact : Option String) (a : Asset) : Bool :=
  truthy exact && a.name == exact.getD ""

/-- Archive-extension test used by the filter branch and the generic
fallback: `asset_name.endswith((".zip", ".7z"))`. -/
def isArchiveName (n : String) : Bool :=
  strEndsWith n ".zip" || strEndsWith n ".7z"

/-- The second guard of the loop body (functions.py lines 48–52):
`asset_name_filter and asset_name_filter in asset_name and
asset_name.endswith((".zip", ".7z"))`. -/
def filterHit (fil : Option String) (a : Asset) : Bool :=
  truthy fil && strHas a.name (fil.getD "") && isArchiveName a.name

/-- The `for asset in assets` loop (functions.py lines 43–60): returns
the URL of the first asset hitting either guard. -/
def assetScan (fil exact : Option String) : List Asset → Option String
  | [] => none
  | a :: rest =>
    if exactHit exact a then some a.url
    else if filterHit fil a then some a.url
    else assetScan fil exact rest

/-- The generic fallback scan (functions.py lines 76–82): first asset
ending in `.zip` or `.7z`. -/
def firstArchive : List Asset → Option String
  | [] => none
  | a :: rest => if isArchiveName a.name then some a.url else firstArchive rest

/-- `get_latest_release_asset_url` (functions.py 28–95) after the HTTP
fetch succeeded and `assets` was decoded.  `none` models the `None`
returns (logged "NotFound" outcomes). -/
def get_latest_release_asset_url
    (assets : List Asset) (fil exact : Option String) : Option String :=
  if assets.isEmpty then none
  else
    match assetScan fil exact assets with
    | some u => some u
    | none =>
      if truthy fil && !truthy exact then none
      else if truthy exact then none
      else firstArchive assets

/-- The selection rule of spec §4.1, assembled from the code's own
guards: an asset is selectable iff it hits the exact-name guard, the
filter guard, or — when neither selector is supplied — the generic
archive-extension rule. -/
def selRule (fil exact : Option String) (a : Asset) : Bool :=
  exactHit exact a || filterHit fil a ||
    (!truthy fil && !truthy exact && isArchiveName a.name)

/-! ## Downloader (`download_file`, functions.py 98–122)

The HTTP stream is abstracted to the list of chunk sizes actually
delivered by `r.iter_content` plus a flag saying whether the iterator
then raised a transport error.  The destination is opened with mode
`"wb"` (truncate/create) and every delivered chunk is written before
any exception can propagate; the source contains no `unlink`/`remove`
of `dest_path`, so the written bytes stay on disk either way.
-/

/-- A byte-count view of the files below a download directory:
`some n` means a file of `n` bytes exists at the path. -/
def SizeFS := String → Option Nat

/-- Point update of a `SizeFS`. -/
def updateSize (fs : SizeFS) (p : String) (v : Option Nat) : SizeFS :=
  fun q => if q = p then v else fs q

/-- Outcome of one streamed transfer: the chunk sizes delivered by
`iter_content` before it either finished or raised. -/
structure Transfer where
  chunks : List Nat
  failsMidstream : Bool
deriving DecidableEq

/-- `download_file` (functions.py 98–122): the resulting on-disk state
and whether an exception propagates to the caller.  The `with open`
block closes but never deletes `dest_path`. -/
def download_file (fs : SizeFS) (destPath : String) (t : Transfer) :
    SizeFS × Bool :=
  (updateSize fs destPath (some t.chunks.sum), t.failsMidstream)

/-! ## Tool Provisioner (functions.py 237–321)

Each provisioner is modelled twice, over the same snapshot of the
on-disk cache and of the remote interactions:

* an *outcome* function returning `Option Unit`, where `none` means the
  call terminates the process (an explicit `sys.exit(1)` or an
  exception from `download_file` that no provisioner catches) and
  `some ()` means control returns to the caller;
* a *network-call count*, counting one call for the release-API query
  inside `get_latest_release_asset_url` (`requests.get`, line 34) and
  one for each `download_file` invocation (`requests.get`, line 105).
-/

/-- Snapshot of the tool cache on disk and of the remote lookups, as
consulted by the four provisioners. -/
structure ToolState where
  /-- `SEVENZR_EXE.exists()` (functions.py 315). -/
  sevenZrExeExists : Bool
  /-- the 7zr download completes (line 319). -/
  sevenZrDownloadOk : Bool
  /-- GBE tools release lookup returns a URL (line 294). -/
  toolsUrlFound : Bool
  /-- `tools_archive.exists()` (line 300). -/
  toolsArchiveCached : Bool
  /-- the tools download completes (line 301). -/
  toolsDownloadOk : Bool
  /-- `extract_archive` of the tools archive succeeds (line 306). -/
  toolsExtractOk : Bool
  /-- `CONFIG_EMU_EXE.exists()` — the tools sentinel (line 309). -/
  configEmuExeExists : Bool
  /-- emulator release lookup returns a URL (line 270). -/
  emuUrlFound : Bool
  /-- the emulator download completes (line 276). -/
  emuDownloadOk : Bool
  /-- `extract_archive` of the emulator archive succeeds (line 278). -/
  emuExtractOk : Bool
  /-- `emu_dll_dir.exists()` — the emulator sentinel (line 283). -/
  emuDllDirExists : Bool
  /-- Steamless release lookup returns a URL (line 239). -/
  slUrlFound : Bool
  /-- `steamless_archive.exists()` (line 252). -/
  slArchiveCached : Bool
  /-- the Steamless download completes (line 258). -/
  slDownloadOk : Bool
  /-- `extract_archive` of the Steamless archive succeeds (line 260). -/
  slExtractOk : Bool
deriving DecidableEq

/-- `get_7zr` (functions.py 314–321): returns at once if the sentinel
executable is cached; otherwise downloads, and a failed download
raises out of the call. -/
def get_7zr (s : ToolState) : Option Unit :=
  if s.sevenZrExeExists then some ()
  else if s.sevenZrDownloadOk then some () else none

/-- Network calls performed by `get_7zr`. -/
def get_7zr_netCalls (s : ToolState) : Nat :=
  if s.sevenZrExeExists then 0 else 1

/-- `get_emu_tools` (functions.py 291–311): always queries the release
API first; skips the download iff the archive is cached; exits on a
missing URL, failed extraction or missing sentinel. -/
def get_emu_tools (s : ToolState) : Option Unit :=
  if !s.toolsUrlFound then none
  else if !s.toolsArchiveCached && !s.toolsDownloadOk then none
  else if !s.toolsExtractOk then none
  else if !s.configEmuExeExists then none
  else some ()

/-- Network calls performed by `get_emu_tools`: one unconditional API
query, plus the download unless the archive is cached. -/
def get_emu_tools_netCalls (s : ToolState) : Nat :=
  1 + (if !s.toolsUrlFound then 0 else if s.toolsArchiveCached then 0 else 1)

/-- `get_emu` (functions.py 268–288): always queries the release API
and, when a URL is found, always calls `download_file` — there is no
cached-archive check in this provisioner. -/
def get_emu (s : ToolState) : Option Unit :=
  if !s.emuUrlFound then none
  else if !s.emuDownloadOk then none
  else if !s.emuExtractOk then none
  else if !s.emuDllDirExists then none
  else some ()

/-- Network calls performed by `get_emu`. -/
def get_emu_netCalls (s : ToolState) : Nat :=
  1 + (if s.emuUrlFound then 1 else 0)

/-- `get_steamless` (functions.py 237–265): a missing release or a
failed extraction only logs a warning and returns, but an uncached
archive whose download raises propagates the exception (there is no
`try` around `download_file` at line 258). -/
def get_steamless (s : ToolState) : Option Unit :=
  if !s.slUrlFound then some ()
  else if !s.slArchiveCached && !s.slDownloadOk then none
  else some ()

/-- Network calls performed by `get_steamless`: one unconditional API
query, plus the download unless the archive is cached. -/
def get_steamless_netCalls (s : ToolState) : Nat :=
  1 + (if !s.slUrlFound then 0 else if s.slArchiveCached then 0 else 1)

/-- The claim's notion of "fully installed": every sentinel executable
and every cached archive is present on disk, and the release lookups
resolve as they did on the first run. -/
def fullyInstalled (s : ToolState) : Prop :=
  s.sevenZrExeExists = true ∧
  s.toolsUrlFound = true ∧ s.toolsArchiveCached = true ∧
  s.toolsExtractOk = true ∧ s.configEmuExeExists = true ∧
  s.emuUrlFound = true ∧ s.emuDownloadOk = true ∧
  s.emuExtractOk = true ∧ s.emuDllDirExists = true ∧
  s.slUrlFound = true ∧ s.slArchiveCached = true ∧ s.slExtractOk = true

instance (s : ToolState) : Decidable (fullyInstalled s) := by
  unfold fullyInstalled
  infer_instance

/-! ## AppID Locator (`find_and_get_appid`, functions.py 166–196)

`markers` is the list of contents of the readable `steam_appid.txt`
files yielded by `rglob`, in traversal order — the source `break`s on
the first one and never revisits the rest.  `inputs` is the stream of
interactive answers; `input()` raising `EOFError` on exhaustion is the
`none` result (the spec's UserAborted).
-/

/-- The `while True` prompt loop (functions.py 191–196): strip each
answer, reject non-digit ones, return the first all-digit one;
`none` when the input stream runs out. -/
def promptLoop : List String → Option String
  | [] => none
  | i :: rest =>
    if pyIsDigit (pyStrip i) then some (pyStrip i) else promptLoop rest

/-- `find_and_get_appid` (functions.py 166–196). -/
def find_and_get_appid (markers inputs : List String) : Option String :=
  match markers with
  | content :: _ =>
    if pyIsDigit (pyStrip content) then some (pyStrip content)
    else promptLoop inputs
  | [] => promptLoop inputs

/-! ## `pathlib.Path.with_suffix`

The unpack stage derives its sibling paths with
`exe.with_suffix(".exe.bak")` and `exe.with_suffix(".exe.unpacked.exe")`
(cli.py 70–71).  `pyName` is `Path.name` (the component after the last
separator), `pySuffix` is `Path.suffix` (from the last dot of the name,
provided that dot is neither the name's first nor last character), and
`pyWithSuffix` replaces `pySuffix` by the given new suffix.
-/

/-- `Path.name`: the chunk after the last `/`. -/
def pyName (p : List Char) : List Char :=
  (p.reverse.takeWhile (fun c => c ≠ '/')).reverse

/-- The characters of the name after its last dot (reversed); helper
for `pySuffix`. -/
def revAfterDot (name : List Char) : List Char :=
  name.reverse.takeWhile (fun c => c ≠ '.')

/-- `Path.suffix`: the final extension of the name, empty when the last
dot is absent, leading (hidden file) or trailing. -/
def pySuffix (name : List Char) : List Char :=
  if (revAfterDot name).length = name.length then []
  else if (revAfterDot name).length = 0 then []
  else if (revAfterDot name).length + 1 = name.length then []
  else '.' :: (revAfterDot name).reverse

/-- `Path.with_suffix`: strip the current suffix of the name and append
the new one. -/
def pyWithSuffix (p suf : List Char) : List Char :=
  p.take (p.length - (pyName p).length) ++
    (pyName p).take ((pyName p).length - (pySuffix (pyName p)).length) ++ suf

/-- String wrapper for `pyWithSuffix`. -/
def pyWithSuffixStr (p suf : String) : String :=
  ⟨pyWithSuffix p.data suf.data⟩

/-! ## Executable Unpacker Stage (cli.py 52–71)

Files are a map from path strings to contents.  `copyfile` and
`moveFile` are `shutil.copyfile` / `shutil.move`; a missing source
raises in Python, which aborts the run on the spot — the state at that
point is the unchanged map, which is what the model returns, so every
conclusion below about preserved content covers the aborted runs too.
-/

/-- Contents of the files below the game tree. -/
def FileFS := String → Option String

/-- `exe.with_suffix(".exe.bak")` (cli.py 70). -/
def bakName (e : String) : String :=
  pyWithSuffixStr e ".exe.bak"

/-- `exe.with_suffix(".exe.unpacked.exe")` (cli.py 71). -/
def unpackedName (e : String) : String :=
  pyWithSuffixStr e ".exe.unpacked.exe"

/-- `shutil.copyfile(src, dst)`: overwrite `dst` with the content of
`src`; a missing `src` raises, leaving the map unchanged. -/
def copyfile (fs : FileFS) (src dst : String) : FileFS :=
  match fs src with
  | some c => fun p => if p = dst then some c else fs p
  | none => fs

/-- `shutil.move(src, dst)`: the content of `src` reappears at `dst`
and disappears from `src`; a missing `src` raises, leaving the map
unchanged. -/
def moveFile (fs : FileFS) (src dst : String) : FileFS :=
  match fs src with
  | some c => fun p => if p = dst then some c else if p = src then none else fs p
  | none => fs

/-- The body of the decrypt loop for one executable (cli.py 62–71):
when the Steamless subprocess fails (`ok = false`) the exception is
swallowed and nothing on disk changes; on success the original is
copied to its `.bak` sibling and the `.unpacked.exe` output is moved
over the original path. -/
def unpackStep (fs : FileFS) (e : String) (ok : Bool) : FileFS :=
  if ok then moveFile (copyfile fs e (bakName e)) (unpackedName e) e
  else fs

/-- The whole decrypt loop over `exe_list`, each executable paired with
the success of its Steamless invocation. -/
def runUnpackStage (fs : FileFS) (l : List (String × Bool)) : FileFS :=
  l.foldl (fun acc p => unpackStep acc p.1 p.2) fs

/-! ## Target Locator and the pipeline `overwrite_dll` (cli.py 31–125)

`rglob("steam_api64.dll")` under the game root yields paths that are
the game path joined with a relative path; each yielded entry carries
an `is_file` flag.  The exclusion test (cli.py 78) lower-cases the full
path string and looks for the substrings "crack" and "original".
-/

/-- The exclusion test of cli.py line 78:
`"crack" in str(p).lower() or "original" in str(p).lower()`. -/
def excludedPath (p : String) : Bool :=
  strHas (pyLower p) "crack" || strHas (pyLower p) "original"

/-- Join the game root with an `rglob`-relative path. -/
def joinPath (gamePath rel : String) : String :=
  gamePath ++ "/" ++ rel

/-- The `steam_api64.dll` discovery loop (cli.py 75–86): skip excluded
paths, keep the file entries, in traversal order.  Candidates are
`(relative path, is_file)` pairs. -/
def selectTargets (gamePath : String) : List (String × Bool) → List String
  | [] => []
  | (rel, isFile) :: rest =>
    if excludedPath (joinPath gamePath rel) then selectTargets gamePath rest
    else if isFile then joinPath gamePath rel :: selectTargets gamePath rest
    else selectTargets gamePath rest

/-- Everything `overwrite_dll` consults, in the order it consults it:
the marker files and interactive answers for the AppID, the tool-cache
snapshot, the presence of the Steamless CLI, the discovered
executables, the DLL candidates, and the success of the per-target
subprocess and copy steps. -/
structure World where
  markers : List String
  inputs : List String
  tools : ToolState
  /-- `(TOOLS_DIR / "steamless" / "steamless.cli.exe").exists()` (cli.py 48). -/
  steamlessCliExists : Bool
  gamePath : String
  /-- `rglob("*.exe")` hits that are files (cli.py 53–55). -/
  exeFiles : List String
  /-- `rglob("steam_api64.dll")` hits as (relative path, is_file). -/
  dllCandidates : List (String × Bool)
  /-- the `generate_emu_config` subprocess exits 0 (cli.py 94). -/
  configGenOk : Bool
  /-- the generator-output `copytree` loop completes (cli.py 98–103). -/
  copyOutputOk : Bool
  /-- per-target success of `generate_interfaces` (cli.py 110). -/
  interfacesOk : String → Bool
  /-- per-target success of `copy_contents` deployment (cli.py 121). -/
  deployOk : String → Bool

/-- Observable shape of one run: the process exit code and which of the
post-provisioning stages were reached. -/
structure RunTrace where
  exitCode : Nat
  ranDecrypt : Bool
  ranConfigGen : Bool
  ranDeploy : Bool
  targets : List String
deriving DecidableEq

/-- The interface-generation loop (cli.py 107–123): a failed
`generate_interfaces` run logs and continues to the next target; a
failed `copy_contents` deployment exits 1 on the spot. -/
def interfacesLoop (intOk deployOk : String → Bool) : List String → Nat
  | [] => 0
  | t :: rest =>
    if !intOk t then interfacesLoop intOk deployOk rest
    else if !deployOk t then 1
    else interfacesLoop intOk deployOk rest

/-- `overwrite_dll` (cli.py 31–125), with each `sys.exit(1)` — and each
uncaught exception, which also terminates with a nonzero status —
mapped to an exit-1 trace recording how far the run got. -/
def overwrite_dll (w : World) : RunTrace :=
  match find_and_get_appid w.markers w.inputs with
  | none => ⟨1, false, false, false, []⟩
  | some _ =>
    match get_7zr w.tools with
    | none => ⟨1, false, false, false, []⟩
    | some _ =>
      match get_emu_tools w.tools with
      | none => ⟨1, false, false, false, []⟩
      | some _ =>
        match get_emu w.tools with
        | none => ⟨1, false, false, false, []⟩
        | some _ =>
          match get_steamless w.tools with
          | none => ⟨1, false, false, false, []⟩
          | some _ =>
            if !w.steamlessCliExists then ⟨1, false, false, false, []⟩
            else if w.exeFiles.isEmpty then ⟨1, false, false, false, []⟩
            else
              let targets := selectTargets w.gamePath w.dllCandidates
              if targets.isEmpty then ⟨1, true, false, false, []⟩
              else if !w.configGenOk then ⟨1, true, true, false, targets⟩
              else if !w.copyOutputOk then ⟨1, true, true, true, targets⟩
              else
                ⟨interfacesLoop w.interfacesOk w.deployOk targets,
                  true, true, true, targets⟩

/-! ## Concrete scenarios used by the claim-level evaluations -/

/-- A cache state in which every tool is fully installed: every
sentinel executable and cached archive is on disk, and the release
lookups resolve as on the first run. -/
def installedToolState : ToolState :=
  ⟨true, true, true, true, true, true, true, true, true, true, true,
    true, true, true, true⟩

/-- A cache state in which the Steamless release lookup fails (so
`get_steamless` logs and returns without installing anything) while
every other provisioning step succeeds. -/
def steamlessFailTools : ToolState :=
  ⟨true, true, true, true, true, true, true, true, true, true, true,
    false, false, false, false⟩

/-- A run in which only Steamless is missing: valid marker, all other
tools provisioned, one executable, one qualifying target DLL, every
later stage able to succeed. -/
def steamlessAbsentWorld : World :=
  ⟨["480"], [], steamlessFailTools, false, "C:/Games/MyGame",
    ["C:/Games/MyGame/game.exe"], [("game/steam_api64.dll", true)],
    true, true, fun _ => true, fun _ => true⟩

/-- A run whose game tree holds no `*.exe` file at all but does hold a
qualifying `steam_api64.dll`; everything else is healthy. -/
def noExeWorld : World :=
  ⟨["480"], [], installedToolState, true, "C:/Games/MyGame", [],
    [("game/steam_api64.dll", true)], true, true,
    fun _ => true, fun _ => true⟩

/-- A healthy run whose only DLL candidate sits under an `original/`
folder, so the locator excludes it and zero targets remain. -/
def targetlessWorld : World :=
  ⟨["480"], [], installedToolState, true, "C:/Games/MyGame",
    ["C:/Games/MyGame/game.exe"], [("original/steam_api64.dll", true)],
    true, true, fun _ => true, fun _ => true⟩

/-- A healthy run whose game root itself spells "Originals", with a
perfectly ordinary DLL candidate below it. -/
def originalsRootWorld : World :=
  ⟨["480"], [], installedToolState, true, "D:/Originals/MyGame",
    ["D:/Originals/MyGame/game.exe"], [("game/steam_api64.dll", true)],
    true, true, fun _ => true, fun _ => true⟩

/-- The concrete unpack-stage scenario: two executables, the first
decrypted successfully, the second left alone. -/
def exesC8 : List (String × Bool) :=
  [("game/app.exe", true), ("game/other.exe", false)]

/-- On-disk contents for the unpack-stage scenario. -/
def fsC8 : FileFS :=
  fun p =>
    if p = "game/app.exe" then some "ORIG"
    else if p = "game/app.exe.unpacked.exe" then some "UNPACKED"
    else if p = "game/other.exe" then some "ORIG2"
    else none

/-- A game tree holding a leftover unpacked output (say from an
aborted earlier run): `game/x.exe` plus a pre-existing
`game/x.exe.unpacked.exe`, BOTH matched by the `rglob("*.exe")` scan
of cli.py 53.  Steamless succeeds on the first; by the time the
second's iteration runs its file has been moved away, so its
subprocess fails and is swallowed. -/
def exesC8bad : List (String × Bool) :=
  [("game/x.exe", true), ("game/x.exe.unpacked.exe", false)]

/-- On-disk contents for the leftover-output scenario. -/
def fsC8bad : FileFS :=
  fun p =>
    if p = "game/x.exe" then some "A"
    else if p = "game/x.exe.unpacked.exe" then some "B"
    else none

/-! ## Helper lemmas -/

/-- The asset loop returns the URL of the first asset hitting either of
its two guards. -/
theorem assetScan_eq_find (fil exact : Option String) (assets : List Asset) :
    assetScan fil exact assets =
      (assets.find? (fun a => exactHit exact a || filterHit fil a)).map Asset.url := by
  induction assets with
  | nil => rfl
  | cons a rest ih =>
    by_cases h1 : exactHit exact a = true
    · simp [assetScan, List.find?_cons, h1]
    · by_cases h2 : filterHit fil a = true
      · simp [assetScan, List.find?_cons, h1, h2]
      · simp [assetScan, List.find?_cons, h1, h2, ih]

/-- The generic fallback returns the URL of the first archive-named
asset. -/
theorem firstArchive_eq_find (assets : List Asset) :
    firstArchive assets =
      (assets.find? (fun a => isArchiveName a.name)).map Asset.url := by
  induction assets with
  | nil => rfl
  | cons a rest ih =>
    by_cases h : isArchiveName a.name = true <;>
      simp [firstArchive, List.find?_cons, h, ih]

/-! ## Claim C5 -/

/-- Claim C5, counterexample: with assets `[{name := "tool.zip"}]`, the
exact name `"missing.exe"` matching no asset and the filter `".zip"`
also supplied, the resolver returns the filter match `u1` instead of
the NotFound (`none`) the claim demands — the filter is not ignored. -/
theorem C5_counterexample :
    (∀ a ∈ [Asset.mk "tool.zip" "u1"], a.name ≠ "missing.exe") ∧
    get_latest_release_asset_url [Asset.mk "tool.zip" "u1"]
        (some ".zip") (some "missing.exe") = some "u1" := by
  decide

/-- Claim C5 as amended: when a nonempty exact name is supplied, the
resolver returns the URL of the first asset that either equals the
exact name or hits a simultaneously supplied substring filter (with an
archive extension), scanning assets in order; it returns NotFound only
when no asset satisfies either guard.  The filter is therefore NOT
ignored when an exact name is supplied. -/
theorem C5_exact_name_resolution (assets : List Asset) (fil : Option String)
    (e : String) (he : e ≠ "") :
    get_latest_release_asset_url assets fil (some e) =
      (assets.find? (fun a => exactHit (some e) a || filterHit fil a)).map
        Asset.url := by
  have ht : truthy (some e) = true := by
    simp [truthy, he]
  cases assets with
  | nil => rfl
  | cons a rest =>
    unfold get_latest_release_asset_url
    rw [assetScan_eq_find]
    simp only [List.isEmpty_cons, Bool.false_eq_true, if_false, ht,
      Bool.not_true, Bool.and_false, Bool.false_eq_true]
    cases hfind :
        ((a :: rest).find? (fun x => exactHit (some e) x || filterHit fil x)) with
    | none => simp
    | some u => simp

/-- Witness for C5: the amended characterization evaluated at two
concrete calls — the counterexample input, and a call whose exact name
is present. -/
theorem C5_witness :
    get_latest_release_asset_url [Asset.mk "tool.zip" "u1"]
        (some ".zip") (some "missing.exe") = some "u1" ∧
    get_latest_release_asset_url [Asset.mk "emu.7z" "u7"]
        none (some "emu.7z") = some "u7" := by
  have h1 := C5_exact_name_resolution [Asset.mk "tool.zip" "u1"]
    (some ".zip") "missing.exe" (by decide)
  have h2 := C5_exact_name_resolution [Asset.mk "emu.7z" "u7"]
    none "emu.7z" (by decide)
  rw [h1, h2]
  decide

/-! ## Claim C6 -/

/-- Claim C6: for a release with an empty assets array, and for any
assets array in which no asset satisfies the selection rule (the
code's own guards: exact-name hit, filter-with-archive-extension hit,
or — with no selector supplied — archive extension), the resolver
returns NotFound (`none`).  The embedded selection logic is a total
function, so no exception can escape it. -/
theorem C6_resolver_notfound (assets : List Asset) (fil exact : Option String)
    (h : ∀ a ∈ assets, selRule fil exact a = false) :
    get_latest_release_asset_url [] fil exact = none ∧
    get_latest_release_asset_url assets fil exact = none := by
  refine ⟨rfl, ?_⟩
  have hmiss : ∀ a ∈ assets,
      (exactHit exact a = false) ∧ (filterHit fil a = false) ∧
      ((!truthy fil && !truthy exact) = true → isArchiveName a.name = false) := by
    intro a ha
    have := h a ha
    unfold selRule at this
    constructor
    · cases hx : exactHit exact a <;> simp [hx] at this ⊢
    · constructor
      · cases hx : filterHit fil a <;> simp [hx] at this ⊢
      · intro hb
        cases hx : isArchiveName a.name <;> simp [hx, hb] at this ⊢
  have hscan : assetScan fil exact assets = none := by
    rw [assetScan_eq_find]
    have : assets.find? (fun a => exactHit exact a || filterHit fil a) = none := by
      rw [List.find?_eq_none]
      intro a ha
      have := hmiss a ha
      simp [this.1, this.2.1]
    rw [this]
    rfl
  cases assets with
  | nil => rfl
  | cons a rest =>
    unfold get_latest_release_asset_url
    rw [hscan]
    simp only [List.isEmpty_cons, Bool.false_eq_true, if_false]
    by_cases hf : (truthy fil && !truthy exact) = true
    · simp [hf]
    · by_cases hx : truthy exact = true
      · simp [hf, hx]
      · have hboth : (!truthy fil && !truthy exact) = true := by
          cases hfil : truthy fil
          · simp [hx]
          · simp [hfil, hx] at hf
        have hfa : firstArchive (a :: rest) = none := by
          rw [firstArchive_eq_find]
          have : (a :: rest).find? (fun x => isArchiveName x.name) = none := by
            rw [List.find?_eq_none]
            intro x hxm
            have := (hmiss x hxm).2.2 hboth
            simp [this]
          rw [this]
          rfl
        simp [hf, hx, hfa]

/-- Witness for C6: a release whose only asset misses the filter
selector, and the empty release. -/
theorem C6_witness :
    get_latest_release_asset_url [] (some "win") none = none ∧
    get_latest_release_asset_url [Asset.mk "readme.md" "u"]
        (some "win") none = none :=
  C6_resolver_notfound [Asset.mk "readme.md" "u"] (some "win") none (by decide)

/-! ## Claim C3 -/

/-- Claim C3, counterexample: a transfer that delivers two chunks and
then fails leaves a file at the destination path — `download_file`
contains no deletion, so the claim's "no file exists at the
destination path after the failure" is false. -/
theorem C3_counterexample :
    (download_file (fun _ => none) "tools/downloads/pkg.zip"
        (Transfer.mk [8192, 4096] true)).2 = true ∧
    (download_file (fun _ => none) "tools/downloads/pkg.zip"
        (Transfer.mk [8192, 4096] true)).1 "tools/downloads/pkg.zip" ≠ none := by
  constructor
  · rfl
  · simp [download_file, updateSize]

/-- Claim C3 as amended: on a mid-stream transport failure the error
propagates to the caller with NO deletion of the destination — the
partially-written file remains on disk holding exactly the bytes
delivered before the failure. -/
theorem C3_partial_file_remains (fs : SizeFS) (dest : String) (t : Transfer)
    (h : t.failsMidstream = true) :
    (download_file fs dest t).2 = true ∧
    (download_file fs dest t).1 dest = some t.chunks.sum := by
  refine ⟨h, ?_⟩
  simp [download_file, updateSize]

/-- Witness for C3: the amended statement at the counterexample's
transfer. -/
theorem C3_witness :
    (download_file (fun _ => none) "tools/downloads/pkg.zip"
        (Transfer.mk [8192, 4096] true)).2 = true ∧
    (download_file (fun _ => none) "tools/downloads/pkg.zip"
        (Transfer.mk [8192, 4096] true)).1 "tools/downloads/pkg.zip"
      = some 12288 := by
  have h := C3_partial_file_remains (fun _ => none) "tools/downloads/pkg.zip"
    (Transfer.mk [8192, 4096] true) rfl
  refine ⟨h.1, ?_⟩
  rw [h.2]
  rfl

/-! ## Claim C4 -/

/-- Claim C4, counterexample: with every tool fully installed, a second
invocation still performs network calls — the tools and Steamless
provisioners re-query the release API (1 call each) and the emulator
provisioner re-queries AND re-downloads (2 calls), so "zero network
calls" fails for three of the four tools. -/
theorem C4_counterexample :
    fullyInstalled installedToolState ∧
    get_emu_tools_netCalls installedToolState = 1 ∧
    get_emu_netCalls installedToolState = 2 ∧
    get_steamless_netCalls installedToolState = 1 := by
  decide

/-- Claim C4 as amended: with a tool fully installed, only the archiver
(7zr) provisioner performs zero network calls on a second invocation;
the tools and Steamless provisioners always re-query the release API
and skip only the archive download, and the emulator provisioner
always re-queries and always re-downloads.  All four still return
control to the caller. -/
theorem C4_second_run_network_calls (s : ToolState) (h : fullyInstalled s) :
    get_7zr_netCalls s = 0 ∧
    get_emu_tools_netCalls s = 1 ∧
    get_steamless_netCalls s = 1 ∧
    get_emu_netCalls s = 2 ∧
    get_7zr s = some () ∧ get_emu_tools s = some () ∧
    get_emu s = some () ∧ get_steamless s = some () := by
  obtain ⟨h1, h2, h3, h4, h5, h6, h7, h8, h9, h10, h11, h12⟩ := h
  simp [get_7zr_netCalls, get_emu_tools_netCalls, get_steamless_netCalls,
    get_emu_netCalls, get_7zr, get_emu_tools, get_emu, get_steamless,
    h1, h2, h3, h4, h5, h6, h7, h8, h9, h10, h11, h12]

/-- Witness for C4: the amended statement at the fully-installed
state. -/
theorem C4_witness :
    get_7zr_netCalls installedToolState = 0 ∧
    get_emu_tools_netCalls installedToolState = 1 ∧
    get_steamless_netCalls installedToolState = 1 ∧
    get_emu_netCalls installedToolState = 2 ∧
    get_7zr installedToolState = some () ∧
    get_emu_tools installedToolState = some () ∧
    get_emu installedToolState = some () ∧
    get_steamless installedToolState = some () :=
  C4_second_run_network_calls installedToolState (by decide)

/-! ## Claim C9 -/

/-- The prompt loop returns precisely the first interactive answer
that, once stripped, is all-digit. -/
theorem promptLoop_eq_find (inputs : List String) :
    promptLoop inputs = (inputs.map pyStrip).find? pyIsDigit := by
  induction inputs with
  | nil => rfl
  | cons i rest ih =>
    by_cases h : pyIsDigit (pyStrip i) = true <;>
      simp [promptLoop, List.find?_cons, h, ih]

/-- Claim C9: when the first `steam_appid.txt` found contains (after
stripping) an all-digit string, the locator returns it for EVERY input
stream — in particular for the empty one, so no interactive prompt is
consulted; when no marker exists or the first marker's content is not
all-digit, the locator is exactly the interactive loop, which rejects
every non-digit answer and returns the first all-digit answer
(stripped). -/
theorem C9_appid_locator (markers inputs : List String) (m : String)
    (rest : List String) :
    (markers = m :: rest → pyIsDigit (pyStrip m) = true →
      find_and_get_appid markers inputs = some (pyStrip m)) ∧
    (markers = [] ∨ (markers = m :: rest ∧ pyIsDigit (pyStrip m) = false) →
      find_and_get_appid markers inputs = (inputs.map pyStrip).find? pyIsDigit) := by
  constructor
  · rintro rfl hdig
    simp [find_and_get_appid, hdig]
  · rintro (rfl | ⟨rfl, hdig⟩)
    · simp [find_and_get_appid, promptLoop_eq_find]
    · simp [find_and_get_appid, hdig, promptLoop_eq_find]

/-- Witness for C9: a marker containing `"480"` short-circuits with no
input available, and with an invalid marker the loop skips the
non-digit answer `"xyz"` and returns the stripped `" 42 "`. -/
theorem C9_witness :
    find_and_get_appid ["480"] [] = some "480" ∧
    find_and_get_appid ["abc"] ["xyz", " 42 "] = some "42" := by
  have h1 := (C9_appid_locator ["480"] [] "480" []).1 rfl (by decide)
  have h2 := (C9_appid_locator ["abc"] ["xyz", " 42 "] "abc" []).2
    (Or.inr ⟨rfl, by decide⟩)
  rw [h1, h2]
  decide

/-! ## Substring-containment lemmas -/

/-- A prefix hit survives extending the haystack on the right. -/
theorem charsStartWith_append (n l m : List Char)
    (h : charsStartWith n l = true) : charsStartWith n (l ++ m) = true := by
  induction n generalizing l with
  | nil => rfl
  | cons a as ih =>
    cases l with
    | nil => simp [charsStartWith] at h
    | cons b bs =>
      simp only [charsStartWith, Bool.and_eq_true] at h
      simp only [List.cons_append, charsStartWith, Bool.and_eq_true]
      exact ⟨h.1, ih bs h.2⟩

/-- The empty needle occurs in every haystack. -/
theorem charsHave_nil (m : List Char) : charsHave [] m = true := by
  induction m with
  | nil => rfl
  | cons c rest ih => simp [charsHave, charsStartWith, ih]

/-- A containment hit survives extending the haystack on the right. -/
theorem charsHave_append (n l m : List Char) (h : charsHave n l = true) :
    charsHave n (l ++ m) = true := by
  induction l with
  | nil =>
    have : n = [] := by
      simpa [charsHave, List.isEmpty_iff] using h
    subst this
    exact charsHave_nil m
  | cons c rest ih =>
    simp only [charsHave, Bool.or_eq_true] at h
    rcases h with h1 | h2
    · simp only [List.cons_append, charsHave, Bool.or_eq_true]
      exact Or.inl (charsStartWith_append n (c :: rest) m h1)
    · simp only [List.cons_append, charsHave, Bool.or_eq_true]
      exact Or.inr (ih h2)

/-- String append concatenates the character data. -/
theorem strData_append (a b : String) : (a ++ b).data = a.data ++ b.data := by
  cases a
  cases b
  rfl

/-- `pyLower` distributes over string append. -/
theorem pyLower_append (a b : String) :
    pyLower (a ++ b) = pyLower a ++ pyLower b := by
  cases a with
  | mk la =>
    cases b with
    | mk lb =>
      show String.mk ((la ++ lb).map lowerChar)
          = String.mk (la.map lowerChar) ++ String.mk (lb.map lowerChar)
      rw [List.map_append]
      rfl

/-- Containment survives appending to the haystack string. -/
theorem strHas_extend (a b n : String) (h : strHas a n = true) :
    strHas (a ++ b) n = true := by
  unfold strHas at h ⊢
  rw [strData_append]
  exact charsHave_append n.data a.data b.data h

/-- If the lower-cased game root contains "crack" or "original", every
path below it fails the exclusion test of cli.py line 78. -/
theorem excludedPath_of_gamePath (gp rel : String)
    (h : strHas (pyLower gp) "crack" = true ∨
      strHas (pyLower gp) "original" = true) :
    excludedPath (joinPath gp rel) = true := by
  unfold excludedPath joinPath
  rw [pyLower_append, pyLower_append]
  rcases h with h | h
  · have h1 := strHas_extend (pyLower gp) (pyLower "/") "crack" h
    have h2 := strHas_extend (pyLower gp ++ pyLower "/") (pyLower rel) "crack" h1
    simp [h2]
  · have h1 := strHas_extend (pyLower gp) (pyLower "/") "original" h
    have h2 := strHas_extend (pyLower gp ++ pyLower "/") (pyLower rel) "original" h1
    simp [h2]

/-! ## Target-locator lemmas -/

/-- The discovery loop keeps exactly the non-excluded file entries, in
order, joined with the game root. -/
theorem selectTargets_eq_filter (gp : String) (cands : List (String × Bool)) :
    selectTargets gp cands =
      (cands.filter (fun c => !excludedPath (joinPath gp c.1) && c.2)).map
        (fun c => joinPath gp c.1) := by
  induction cands with
  | nil => rfl
  | cons c rest ih =>
    obtain ⟨rel, isF⟩ := c
    by_cases hex : excludedPath (joinPath gp rel) = true
    · simp [selectTargets, hex, ih, List.filter_cons]
    · simp only [Bool.not_eq_true] at hex
      cases isF <;>
        simp [selectTargets, hex, ih, List.filter_cons]

/-- When every candidate is excluded, zero targets remain. -/
theorem selectTargets_nil_of_excluded (gp : String)
    (cands : List (String × Bool))
    (h : ∀ rel isF, (rel, isF) ∈ cands →
      excludedPath (joinPath gp rel) = true) :
    selectTargets gp cands = [] := by
  induction cands with
  | nil => rfl
  | cons c rest ih =>
    obtain ⟨rel, isF⟩ := c
    have hex := h rel isF (List.mem_cons_self _ _)
    simp only [selectTargets, hex, if_true]
    exact ih (fun r f hm => h r f (List.mem_cons_of_mem _ hm))

/-! ## Pipeline-reduction lemmas -/

/-- A run that passes AppID lookup and provisioning, finds the
Steamless CLI and at least one executable, but zero qualifying target
DLLs, exits with code 1 before the config-generation and deployment
stages. -/
theorem overwrite_dll_no_targets (w : World)
    (happ : (find_and_get_appid w.markers w.inputs).isSome = true)
    (h7 : get_7zr w.tools = some ()) (ht : get_emu_tools w.tools = some ())
    (he : get_emu w.tools = some ()) (hs : get_steamless w.tools = some ())
    (hcli : w.steamlessCliExists = true) (hexe : w.exeFiles.isEmpty = false)
    (hzero : selectTargets w.gamePath w.dllCandidates = []) :
    overwrite_dll w = ⟨1, true, false, false, []⟩ := by
  obtain ⟨a, ha⟩ := Option.isSome_iff_exists.mp happ
  unfold overwrite_dll
  rw [ha, h7, ht, he, hs]
  simp [hcli, hexe, hzero]

/-! ## Claim C1 -/

/-- Claim C1, divergence on the code: a failed Steamless provisioning
is indeed caught inside `get_steamless` (it returns normally), but
`overwrite_dll` then finds `steamless.cli.exe` absent and calls
`sys.exit(1)` (cli.py 48–50) — the run terminates with exit code 1
with the decrypt stage skipped, instead of skipping the stage and
continuing as the claim (and `get_steamless`'s own "Continuing
without it." messages) state. -/
theorem C1_steamless_absence_fatal :
    get_steamless steamlessFailTools = some () ∧
    steamlessAbsentWorld.steamlessCliExists = false ∧
    overwrite_dll steamlessAbsentWorld = ⟨1, false, false, false, []⟩ := by
  decide

/-! ## Claim C2 -/

/-- Claim C2, counterexample: a run with zero `*.exe` files but a
perfectly qualifying target DLL exits with code 1 at the executable
scan (cli.py 57–59) — the target-DLL stages are never reached, so the
stage is fatal, not a no-op. -/
theorem C2_counterexample :
    noExeWorld.exeFiles = [] ∧
    selectTargets noExeWorld.gamePath noExeWorld.dllCandidates ≠ [] ∧
    overwrite_dll noExeWorld = ⟨1, false, false, false, []⟩ := by
  decide

/-- Claim C2 as amended: for every game tree containing zero files
matching `*.exe`, a run that reached the decrypt stage terminates with
exit code 1 at the executable scan, before the target-DLL, config and
deployment stages.  (Per-file unpack failures for nonempty lists ARE
swallowed — see the unpack-stage invariant — but the empty scan is
fatal.) -/
theorem C2_no_exe_exits (w : World)
    (happ : (find_and_get_appid w.markers w.inputs).isSome = true)
    (h7 : get_7zr w.tools = some ()) (ht : get_emu_tools w.tools = some ())
    (he : get_emu w.tools = some ()) (hs : get_steamless w.tools = some ())
    (hcli : w.steamlessCliExists = true)
    (hexe : w.exeFiles = []) :
    overwrite_dll w = ⟨1, false, false, false, []⟩ := by
  obtain ⟨a, ha⟩ := Option.isSome_iff_exists.mp happ
  unfold overwrite_dll
  rw [ha, h7, ht, he, hs]
  simp [hcli, hexe]

/-- Witness for C2: the amended statement at the concrete no-exe
world. -/
theorem C2_witness :
    overwrite_dll noExeWorld = ⟨1, false, false, false, []⟩ :=
  C2_no_exe_exits noExeWorld (by decide) rfl rfl rfl rfl rfl rfl

/-! ## Claim C7 -/

/-- Claim C7: the locator selects exactly the `steam_api64.dll` file
entries whose full path (game root joined with the relative path),
lower-cased, contains neither "crack" nor "original", in traversal
order; and a run that reaches the locator and finds zero qualifying
targets exits with code 1 before the config-generation and deployment
stages. -/
theorem C7_target_locator (gp : String) (cands : List (String × Bool))
    (w : World)
    (happ : (find_and_get_appid w.markers w.inputs).isSome = true)
    (h7 : get_7zr w.tools = some ()) (ht : get_emu_tools w.tools = some ())
    (he : get_emu w.tools = some ()) (hs : get_steamless w.tools = some ())
    (hcli : w.steamlessCliExists = true) (hexe : w.exeFiles.isEmpty = false)
    (hzero : selectTargets w.gamePath w.dllCandidates = []) :
    selectTargets gp cands =
      (cands.filter (fun c => !excludedPath (joinPath gp c.1) && c.2)).map
        (fun c => joinPath gp c.1) ∧
    overwrite_dll w = ⟨1, true, false, false, []⟩ :=
  ⟨selectTargets_eq_filter gp cands,
    overwrite_dll_no_targets w happ h7 ht he hs hcli hexe hzero⟩

/-- Witness for C7: the spec's own example — an `original/` copy and a
`game/` copy — selects only the `game/` one; and the concrete
targetless run exits 1 before config generation. -/
theorem C7_witness :
    selectTargets "C:/Games/MyGame"
        [("original/steam_api64.dll", true), ("game/steam_api64.dll", true)]
      = ["C:/Games/MyGame/game/steam_api64.dll"] ∧
    overwrite_dll targetlessWorld = ⟨1, true, false, false, []⟩ := by
  have h := C7_target_locator "C:/Games/MyGame"
    [("original/steam_api64.dll", true), ("game/steam_api64.dll", true)]
    targetlessWorld (by decide) rfl rfl rfl rfl rfl rfl (by decide)
  refine ⟨?_, h.2⟩
  rw [h.1]
  decide

/-! ## Claim C10 -/

/-- Claim C10: the exclusion test runs over the entire path string
including the user-supplied game root, so when the lower-cased game
root itself contains "crack" or "original", every `steam_api64.dll`
candidate is excluded and a run that reaches the locator always exits
with code 1 (target-not-found), before config generation and
deployment. -/
theorem C10_contaminated_game_root (w : World)
    (happ : (find_and_get_appid w.markers w.inputs).isSome = true)
    (h7 : get_7zr w.tools = some ()) (ht : get_emu_tools w.tools = some ())
    (he : get_emu w.tools = some ()) (hs : get_steamless w.tools = some ())
    (hcli : w.steamlessCliExists = true) (hexe : w.exeFiles.isEmpty = false)
    (hroot : strHas (pyLower w.gamePath) "crack" = true ∨
      strHas (pyLower w.gamePath) "original" = true) :
    selectTargets w.gamePath w.dllCandidates = [] ∧
    overwrite_dll w = ⟨1, true, false, false, []⟩ := by
  have hzero : selectTargets w.gamePath w.dllCandidates = [] :=
    selectTargets_nil_of_excluded w.gamePath w.dllCandidates
      (fun rel isF _ => excludedPath_of_gamePath w.gamePath rel hroot)
  exact ⟨hzero, overwrite_dll_no_targets w happ h7 ht he hs hcli hexe hzero⟩

/-- Witness for C10: a game root spelled `D:/Originals/MyGame` makes
the ordinary candidate `game/steam_api64.dll` vanish and the run exit
1. -/
theorem C10_witness :
    selectTargets originalsRootWorld.gamePath originalsRootWorld.dllCandidates
      = [] ∧
    overwrite_dll originalsRootWorld = ⟨1, true, false, false, []⟩ :=
  C10_contaminated_game_root originalsRootWorld (by decide) rfl rfl rfl rfl
    rfl rfl (Or.inr (by decide))

/-! ## Path-arithmetic lemmas for the unpack stage -/

/-- `takeWhile` never lengthens a list. -/
theorem takeWhileLenLe (p : Char → Bool) (l : List Char) :
    (l.takeWhile p).length ≤ l.length := by
  induction l with
  | nil => simp
  | cons a as ih =>
    by_cases h : p a = true
    · simp only [List.takeWhile_cons, h, if_true, List.length_cons]
      omega
    · simp [List.takeWhile_cons, h]

/-- The after-last-dot run is no longer than the name. -/
theorem revAfterDot_length_le (name : List Char) :
    (revAfterDot name).length ≤ name.length := by
  unfold revAfterDot
  calc (name.reverse.takeWhile (fun c => c ≠ '.')).length
      ≤ name.reverse.length := takeWhileLenLe _ _
    _ = name.length := List.length_reverse name

/-- The name component is no longer than the whole path. -/
theorem pyName_length_le (p : List Char) : (pyName p).length ≤ p.length := by
  unfold pyName
  rw [List.length_reverse]
  calc (p.reverse.takeWhile (fun c => c ≠ '/')).length
      ≤ p.reverse.length := takeWhileLenLe _ _
    _ = p.length := List.length_reverse p

/-- The suffix is no longer than the name. -/
theorem pySuffix_length_le (n : List Char) :
    (pySuffix n).length ≤ n.length := by
  unfold pySuffix
  split
  · simp
  · split
    · simp
    · split
      · simp
      · simp only [List.length_cons, List.length_reverse]
        have := revAfterDot_length_le n
        omega

/-- Length of a `with_suffix` result in terms of the path, name and old
suffix. -/
theorem pyWithSuffix_length (p suf : List Char) :
    (pyWithSuffix p suf).length =
      (p.length - (pyName p).length) +
        ((pyName p).length - (pySuffix (pyName p)).length) + suf.length := by
  unfold pyWithSuffix
  rw [List.length_append, List.length_append, List.length_take,
    List.length_take, Nat.min_eq_left (Nat.sub_le _ _),
    Nat.min_eq_left (Nat.sub_le _ _)]

/-- Strings of different data lengths differ. -/
theorem stringNe_of_data_length (a b : String)
    (h : a.data.length ≠ b.data.length) : a ≠ b :=
  fun he => h (by rw [he])

/-- For an executable whose name carries the `.exe` suffix, the `.bak`
sibling path differs from the executable's own path. -/
theorem bakName_ne_self (e : String)
    (hsuf : pySuffix (pyName e.data) = ".exe".data) : bakName e ≠ e := by
  apply stringNe_of_data_length
  rw [show (bakName e).data = pyWithSuffix e.data ".exe.bak".data from rfl,
    pyWithSuffix_length]
  have h1 := pySuffix_length_le (pyName e.data)
  have h2 := pyName_length_le e.data
  have hO : (pySuffix (pyName e.data)).length = 4 := by rw [hsuf]; rfl
  have h8 : (".exe.bak".data).length = 8 := by decide
  rw [h8, hO]
  rw [hO] at h1
  omega

/-- The `.unpacked.exe` sibling path always differs from the `.bak`
sibling path. -/
theorem unpackedName_ne_bakName (e : String) : unpackedName e ≠ bakName e := by
  apply stringNe_of_data_length
  rw [show (unpackedName e).data = pyWithSuffix e.data ".exe.unpacked.exe".data
      from rfl,
    show (bakName e).data = pyWithSuffix e.data ".exe.bak".data from rfl,
    pyWithSuffix_length, pyWithSuffix_length]
  have h17 : (".exe.unpacked.exe".data).length = 17 := by decide
  have h8 : (".exe.bak".data).length = 8 := by decide
  rw [h17, h8]
  omega

/-! ## State-preservation lemmas for the unpack stage -/

/-- `copyfile` changes nothing away from its destination. -/
theorem copyfile_preserve (fs : FileFS) (src dst q : String) (h : q ≠ dst) :
    copyfile fs src dst q = fs q := by
  unfold copyfile
  cases hs : fs src
  · rfl
  · simp [h]

/-- `moveFile` changes nothing away from its two endpoints. -/
theorem moveFile_preserve (fs : FileFS) (src dst q : String)
    (h1 : q ≠ dst) (h2 : q ≠ src) : moveFile fs src dst q = fs q := by
  unfold moveFile
  cases hs : fs src
  · rfl
  · simp [h1, h2]

/-- One decrypt-loop iteration for `x` touches only `x`, its `.bak`
sibling and its `.unpacked.exe` sibling. -/
theorem unpackStep_preserve (fs : FileFS) (x : String) (okx : Bool)
    (q : String) (h1 : q ≠ x) (h2 : q ≠ bakName x)
    (h3 : q ≠ unpackedName x) : unpackStep fs x okx q = fs q := by
  cases okx
  · rfl
  · show moveFile (copyfile fs x (bakName x)) (unpackedName x) x q = fs q
    rw [moveFile_preserve _ _ _ _ h1 h3, copyfile_preserve _ _ _ _ h2]

/-- The whole decrypt loop preserves any path separated from every
iteration's three endpoints. -/
theorem runUnpackStage_preserve (l : List (String × Bool)) (fs : FileFS)
    (q : String)
    (h : ∀ x ∈ l, q ≠ x.1 ∧ q ≠ bakName x.1 ∧ q ≠ unpackedName x.1) :
    runUnpackStage fs l q = fs q := by
  induction l generalizing fs with
  | nil => rfl
  | cons x rest ih =>
    have hx := h x (List.mem_cons_self _ _)
    show runUnpackStage (unpackStep fs x.1 x.2) rest q = fs q
    rw [ih (unpackStep fs x.1 x.2) (fun y hy => h y (List.mem_cons_of_mem _ hy))]
    exact unpackStep_preserve fs x.1 x.2 q hx.1 hx.2.1 hx.2.2

/-- A successful iteration deposits the original content at the `.bak`
sibling, whether or not the tool's `.unpacked.exe` output exists. -/
theorem unpackStep_bak (fs : FileFS) (e c : String) (hc : fs e = some c)
    (hbe : bakName e ≠ e) (hub : unpackedName e ≠ bakName e) :
    unpackStep fs e true (bakName e) = some c := by
  have hcopy : copyfile fs e (bakName e) (bakName e) = some c := by
    unfold copyfile
    rw [hc]
    simp
  show moveFile (copyfile fs e (bakName e)) (unpackedName e) e (bakName e)
    = some c
  unfold moveFile
  cases hs : copyfile fs e (bakName e) (unpackedName e)
  · exact hcopy
  · simp only [if_neg hbe, if_neg (Ne.symm hub)]
    exact hcopy

/-! ## Claim C8 -/

/-- Claim C8, counterexample: in a tree holding `game/x.exe` and a
pre-existing `game/x.exe.unpacked.exe` — both matched by the `*.exe`
scan — the successful iteration for `game/x.exe` moves the second
listed executable over `game/x.exe` (cli.py 71); the second's own
iteration then fails on the missing file and is swallowed (cli.py
66–67).  After the stage, the second executable's original content
`"B"` is live neither at its own path nor at its `.bak` sibling (it
sits at `game/x.exe`) — so "the original content is still the live
file at its path (when unpacking failed)" is false for it, refuting
the claim as stated. -/
theorem C8_counterexample :
    ("game/x.exe.unpacked.exe", false) ∈ exesC8bad ∧
    fsC8bad "game/x.exe.unpacked.exe" = some "B" ∧
    runUnpackStage fsC8bad exesC8bad "game/x.exe.unpacked.exe" = none ∧
    runUnpackStage fsC8bad exesC8bad (bakName "game/x.exe.unpacked.exe")
      = none ∧
    runUnpackStage fsC8bad exesC8bad "game/x.exe" = some "B" := by
  decide

/-- Claim C8 as amended: the backup discipline of cli.py 62–71 does
preserve every executable `e` (with Steamless outcome `ok`) whose path
is not aliased by another listed executable's derived sibling paths —
the executables have the `.exe` path suffix, are pairwise distinct,
and no other listed executable or its derived `.bak`/`.unpacked.exe`
sibling coincides with `e` or `e`'s `.bak` sibling (in particular, no
pre-existing `*.unpacked.exe` leftover is in the list).  Then the
original content `c` of `e` survives the whole stage: still live at
`e` when unpacking failed, and as the `.bak` sibling copy when
unpacking succeeded (the copy is made before the unpacked output is
moved over the original).  Without the aliasing proviso the invariant
fails, as the counterexample shows. -/
theorem C8_original_never_lost (l : List (String × Bool)) (fs : FileFS)
    (e : String) (ok : Bool) (c : String)
    (hmem : (e, ok) ∈ l)
    (hsuf : pySuffix (pyName e.data) = ".exe".data)
    (hc : fs e = some c)
    (huniq : l.Pairwise (fun a b => a.1 ≠ b.1))
    (hsep : ∀ x ∈ l, x.1 ≠ e →
      x.1 ≠ bakName e ∧ bakName x.1 ≠ e ∧ bakName x.1 ≠ bakName e ∧
      unpackedName x.1 ≠ e ∧ unpackedName x.1 ≠ bakName e) :
    (ok = false → runUnpackStage fs l e = some c) ∧
    (ok = true → runUnpackStage fs l (bakName e) = some c) := by
  have hbe : bakName e ≠ e := bakName_ne_self e hsuf
  have hub : unpackedName e ≠ bakName e := unpackedName_ne_bakName e
  revert hmem hc huniq hsep
  induction l generalizing fs with
  | nil =>
    intro hmem _ _ _
    cases hmem
  | cons x rest ih =>
    intro hmem hc huniq hsep
    rw [List.pairwise_cons] at huniq
    obtain ⟨hhead, hrest⟩ := huniq
    rcases List.mem_cons.mp hmem with heq | hmem2
    · have hx1 : x.1 = e := by rw [← heq]
      have hx2 : x.2 = ok := by rw [← heq]
      have hrest_ne : ∀ y ∈ rest, y.1 ≠ e := by
        intro y hy
        have hne := hhead y hy
        rw [hx1] at hne
        exact Ne.symm hne
      constructor
      · intro hok
        show runUnpackStage (unpackStep fs x.1 x.2) rest e = some c
        rw [hx1, hx2, hok]
        rw [runUnpackStage_preserve rest (unpackStep fs e false) e ?_]
        · exact hc
        · intro y hy
          have hyne := hrest_ne y hy
          have hsepy := hsep y (List.mem_cons_of_mem _ hy) hyne
          exact ⟨Ne.symm hyne, Ne.symm hsepy.2.1, Ne.symm hsepy.2.2.2.1⟩
      · intro hok
        show runUnpackStage (unpackStep fs x.1 x.2) rest (bakName e) = some c
        rw [hx1, hx2, hok]
        rw [runUnpackStage_preserve rest (unpackStep fs e true) (bakName e) ?_]
        · exact unpackStep_bak fs e c hc hbe hub
        · intro y hy
          have hyne := hrest_ne y hy
          have hsepy := hsep y (List.mem_cons_of_mem _ hy) hyne
          exact ⟨Ne.symm hsepy.1, Ne.symm hsepy.2.2.1, Ne.symm hsepy.2.2.2.2⟩
    · have hxne : x.1 ≠ e := hhead (e, ok) hmem2
      have hsepx := hsep x (List.mem_cons_self _ _) hxne
      have hc1 : unpackStep fs x.1 x.2 e = some c := by
        rw [unpackStep_preserve fs x.1 x.2 e (Ne.symm hxne)
          (Ne.symm hsepx.2.1) (Ne.symm hsepx.2.2.2.1)]
        exact hc
      exact ih (unpackStep fs x.1 x.2) hmem2 hc1 hrest
        (fun y hy hyne => hsep y (List.mem_cons_of_mem _ hy) hyne)

/-- Witness for C8: in the concrete two-executable scenario, the
successfully decrypted `game/app.exe` survives as
`game/app.exe.bak = "ORIG"` and the failed `game/other.exe` is left
untouched. -/
theorem C8_witness :
    runUnpackStage fsC8 exesC8 "game/app.exe.bak" = some "ORIG" ∧
    runUnpackStage fsC8 exesC8 "game/other.exe" = some "ORIG2" := by
  have h1 := C8_original_never_lost exesC8 fsC8 "game/app.exe" true "ORIG"
    (by decide) (by decide) rfl (by decide) (by decide)
  have h2 := C8_original_never_lost exesC8 fsC8 "game/other.exe" false "ORIG2"
    (by decide) (by decide) rfl (by decide) (by decide)
  constructor
  · have hb : bakName "game/app.exe" = "game/app.exe.bak" := by decide
    rw [← hb]
    exact h1.2 rfl
  · exact h2.1 rfl

end GBEasy
